import Mathlib

/-!
Shallow embedding of the lightnet repository fragments relevant to the
claims: the weight-remapping branch of Lightnet.save, the resizing
BatchSampler and Dataset of the dataloading layer, the HyperParameters
container, and the BaseMultiTransform dispatch.  Python dictionaries
(including collections.OrderedDict and instance dicts) are modelled as
association lists that preserve insertion order; opaque runtime objects
carry a Nat payload; logging and attribute errors are modelled by
returning explicit event lists or Option error values.
-/

/-- Association-list lookup mirroring a Python dict read: the first pair
whose key equals the requested one wins. -/
def lookupKey {α : Type} (l : List (String × α)) (k : String) : Option α :=
  match l with
  | [] => none
  | kv :: rest => if kv.1 = k then some kv.2 else lookupKey rest k

/-- Dict assignment preserving insertion order: updating an existing key
keeps its position and a new key is appended at the end, matching both
collections.OrderedDict and Python instance dictionaries. -/
def odInsert {α : Type} (od : List (String × α)) (k : String) (v : α) : List (String × α) :=
  match od with
  | [] => [(k, v)]
  | kv :: rest => if kv.1 = k then (k, v) :: rest else kv :: odInsert rest k v

/-- Inner loop of Lightnet.save for one state-dict key
(src/build/lib/lightnet/network/module/_lightnet.py, lines 121-125):
scan the remap rules in order and, at the first rule whose pattern
matches the key (re.match), return the substituted key (re.sub); the
break statement means later rules are never consulted for that key, and
a key matching no rule yields none.  The regex primitives re.match and
re.sub are abstracted as the parameters m and s. -/
def remapKey (m : String → String → Bool) (s : String → String → String → String) :
    List (String × String) → String → Option String
  | [], _ => none
  | r :: rest, k => if m r.1 k then some (s r.1 r.2 k) else remapKey m s rest k

/-- Lightnet.save with a non-None remap list: loop over the model state
dict in order and insert each remapped key into a fresh OrderedDict;
keys matching no rule are simply not inserted. -/
def lnSaveRemap (m : String → String → Bool) (s : String → String → String → String)
    (remap : List (String × String)) (sd : List (String × Nat)) : List (String × Nat) :=
  sd.foldl (fun od kv =>
    match remapKey m s remap kv.1 with
    | some k2 => odInsert od k2 kv.2
    | none => od) []

/-- Width and height pair used as the network input dimension. -/
abbrev Dim := Nat × Nat

/-- BatchSampler private set_input_dim
(src/build/lib/lightnet/data/_dataloading.py, lines 223-228): when a
new_input_dim request is pending, the sampler logs the resize, adopts it
as the current input_dim and clears the request.  The result is the
input_dim after the call together with the list of logged resizes. -/
def setInputDim (dim : Dim) (req : Option Dim) : Dim × List Dim :=
  match req with
  | some nd => ((nd.1, nd.2), [nd])
  | none => (dim, [])

/-- BatchSampler iteration (lines 217-221).  The underlying sampler is
modelled by the list of index batches it would produce, and the external
assignments to new_input_dim (for example by DataLoader.change_input_dim
between two yields) are modelled by the list reqs, whose i-th entry is
the pending request visible to the i-th set_input_dim call.  The result
is the list of yielded (dim, index) mini-batches together with the log
of resizes.  set_input_dim runs once before the first yield and once
after every yield, so a pending request is only consumed at a mini-batch
boundary. -/
def bsRun (dim : Dim) (reqs : List (Option Dim)) : List (List Nat) → List (List (Dim × Nat)) × List Dim
  | [] => ([], (setInputDim dim (reqs.headD none)).2)
  | b :: bs =>
    let s := setInputDim dim (reqs.headD none)
    let rest := bsRun s.1 reqs.tail bs
    ((b.map fun i => (s.1, i)) :: rest.1, s.2 ++ rest.2)

/-- Per-batch dimension sequence: the dimension used for batch i is the
request consumed at the boundary before batch i when one is pending,
otherwise the dimension carried over from the previous batch. -/
def dimSeq (dim : Dim) (reqs : List (Option Dim)) : Nat → List Dim
  | 0 => []
  | n + 1 =>
    let d := (reqs.headD none).getD dim
    d :: dimSeq d reqs.tail n

/-- Lightnet Dataset state (src/build/lib/lightnet/data/_dataloading.py,
lines 28-49): the default dimension stored at construction and the
optional temporary _input_dim attribute installed by resize_getitem. -/
structure LnDataset where
  defaultDim : Dim
  overrideDim : Option Dim
deriving DecidableEq

/-- Dataset.input_dim property (lines 39-49): the temporary _input_dim
attribute, when present, shadows the default dimension. -/
def inputDim (ds : LnDataset) : Dim :=
  match ds.overrideDim with
  | some d => d
  | none => ds.defaultDim

/-- Dataset.resize_getitem wrapper (lines 51-86).  The wrapped
getitem function is modelled by g, which receives the input_dim visible
to it during the call together with the integer index.  A non-integer
index (dim, i) installs _input_dim before the inner call and deletes it
afterwards; an integer index leaves the state untouched.  The result is
the returned value, the dataset state after the call, and the input_dim
the inner function observed during the call. -/
def resizeGetitem {α : Type} (g : Dim → Nat → α) (ds : LnDataset) :
    Sum Nat (Dim × Nat) → α × LnDataset × Dim
  | Sum.inl i => (g (inputDim ds) i, ds, inputDim ds)
  | Sum.inr di =>
    (g (inputDim { ds with overrideDim := some di.1 }) di.2,
     { ds with overrideDim := none },
     inputDim { ds with overrideDim := some di.1 })

/-- Runtime type of a value reaching BaseMultiTransform.__call__
(src/lightnet/data/transform/util.py, lines 95-106): a brambox
annotation dataframe, a PIL image, a numpy/OpenCV array, any other
non-None object, or None itself. -/
inductive TData where
  | anno (x : Nat)
  | pil (x : Nat)
  | cv (x : Nat)
  | other (x : Nat)
  | pyNone
deriving DecidableEq

/-- Observable events of one BaseMultiTransform.__call__: which override
was dispatched to, or the log.error emitted for an unsupported type. -/
inductive TfEvent where
  | dispatchAnno
  | dispatchPil
  | dispatchCv
  | errorUnsupported
deriving DecidableEq

/-- BaseMultiTransform.__call__ (lines 95-106): None is returned as-is
with no logging and no dispatch; dataframes, PIL images and numpy arrays
are dispatched to the matching override; any other object is logged as
an error and returned unchanged. -/
def baseMultiTransformCall (tfAnno tfPil tfCv : Nat → TData) : TData → TData × List TfEvent
  | TData.pyNone => (TData.pyNone, [])
  | TData.anno x => (tfAnno x, [TfEvent.dispatchAnno])
  | TData.pil x => (tfPil x, [TfEvent.dispatchPil])
  | TData.cv x => (tfCv x, [TfEvent.dispatchCv])
  | TData.other x => (TData.other x, [TfEvent.errorUnsupported])

/-- Value stored as a HyperParameters attribute
(src/build/lib/lightnet/engine/_parameter.py).  A hooked value models an
object exposing state_dict and load_state_dict (its internal state is
the Nat, and acceptsStrict records whether its load_state_dict signature
accepts the strict keyword); a plain value models any other object. -/
inductive HVal where
  | plain (payload : Nat)
  | hooked (st : Nat) (acceptsStrict : Bool)
deriving DecidableEq

/-- HyperParameters instance: the user-visible attribute dictionary (in
insertion order, starting with batch and epoch) and the no-serialize
name list.  The name-mangled internals _HyperParameters__no_serialize
and _HyperParameters__init_done of the Python object are represented by
the structure fields themselves rather than as attributes. -/
structure HP where
  attrs : List (String × HVal)
  noSerialize : List String
deriving DecidableEq

/-- Value stored for one attribute by HyperParameters.save (lines
151-156): objects with a state_dict method contribute state_dict(),
plain values are stored raw. -/
def hvalSave (v : HVal) : Nat :=
  match v with
  | HVal.plain d => d
  | HVal.hooked s _ => s

/-- HyperParameters.save (lines 138-158): walk the attributes in order,
skip those on the no-serialize list, and store each remaining one via
its state_dict method when present, else raw. -/
def hpSave (hp : HP) : List (String × Nat) :=
  hp.attrs.filterMap fun kv =>
    if kv.1 ∈ hp.noSerialize then none else some (kv.1, hvalSave kv.2)

/-- Public methods reachable by hasattr on a HyperParameters instance in
addition to its attribute dictionary. -/
def hpMethodNames : List String := ["from_file", "save", "load", "to"]

/-- hasattr(self, key) as used by HyperParameters.__init__ (line 55):
true for stored attributes and for the methods of the class. -/
def hpHasattr (hp : HP) (k : String) : Bool :=
  (lookupKey hp.attrs k).isSome || hpMethodNames.contains k

/-- Test for the underscore sentinel, key.startswith of a single
underscore, phrased over the character list so that it evaluates by
kernel reduction. -/
def pyStartsUnderscore (s : String) : Bool :=
  match s.data with
  | [] => false
  | c :: _ => c = '_'

/-- Python slicing item[1:], dropping the leading sentinel. -/
def pyStripUnderscore (s : String) : String :=
  String.mk (s.data.drop 1)

/-- One iteration of the kwargs loop of HyperParameters.__init__ (lines
46-60): a key starting with the underscore sentinel is stripped and
marked not-serialized; if an attribute of the resulting name already
exists the value is dropped and an error naming the key is logged
(collected in the second component), otherwise the attribute is stored
and, when not serialized, appended to the no-serialize list. -/
def hpInitStep (acc : HP × List String) (kv : String × HVal) : HP × List String :=
  let key := if pyStartsUnderscore kv.1 then pyStripUnderscore kv.1 else kv.1
  let serialize := !pyStartsUnderscore kv.1
  if hpHasattr acc.1 key then
    (acc.1, acc.2 ++ [key])
  else
    ({ attrs := acc.1.attrs ++ [(key, kv.2)],
       noSerialize := if serialize then acc.1.noSerialize else acc.1.noSerialize ++ [key] },
     acc.2)

/-- HyperParameters.__init__ (lines 41-62): batch and epoch are
initialized to 0 and each kwarg is processed by hpInitStep.  The second
component collects the keys for which an already-exists error was
logged. -/
def hpInit (kwargs : List (String × HVal)) : HP × List String :=
  kwargs.foldl hpInitStep
    ({ attrs := [("batch", HVal.plain 0), ("epoch", HVal.plain 0)], noSerialize := [] }, [])

/-- HyperParameters.__setattr__ after initialization (lines 64-77): an
existing attribute is updated in place; a new name starting with an
underscore raises AttributeError when the stripped name already exists
(the raise precedes every mutation, so the object is returned
unchanged), and otherwise stores the value under the stripped name while
marking it not-serialized; any other new name is stored serialized.  The
second component is the AttributeError payload when one is raised. -/
def hpSetAttr (hp : HP) (item : String) (v : HVal) : HP × Option String :=
  if (lookupKey hp.attrs item).isSome then
    ({ hp with attrs := odInsert hp.attrs item v }, none)
  else if pyStartsUnderscore item then
    if (lookupKey hp.attrs (pyStripUnderscore item)).isSome then
      (hp, some item)
    else
      ({ attrs := hp.attrs ++ [(pyStripUnderscore item, v)], noSerialize := hp.noSerialize ++ [pyStripUnderscore item] }, none)
  else
    ({ hp with attrs := hp.attrs ++ [(item, v)] }, none)

/-- Observable events of HyperParameters.load: a load_state_dict call
with the strict keyword, the retry without it after a TypeError, a
direct setattr assignment, or a mismatch warning.  The warning
constructor exists only so that its absence from every produced trace is
expressible; the source contains no log.warning. -/
inductive HpLoadEvent where
  | loadWithStrict (k : String)
  | typeErrorRetry (k : String)
  | directAssign (k : String)
  | warnMismatch (k : String)
deriving DecidableEq

/-- Predicate selecting warning events. -/
def HpLoadEvent.isWarn : HpLoadEvent → Bool
  | HpLoadEvent.warnMismatch _ => true
  | _ => false

/-- One iteration of HyperParameters.load (lines 174-185): when the
current attribute for the saved key exposes load_state_dict, it is
called with the strict keyword first and retried without it exactly when
the hook does not accept the keyword (TypeError); in every other case
the saved value is assigned through setattr.  The hook call replaces the
hooked object's internal state with the saved value. -/
def hpLoadKey (hp : HP) (k : String) (v : Nat) (strict : Bool) : HP × List HpLoadEvent :=
  match lookupKey hp.attrs k with
  | some (HVal.hooked _ b) =>
    ({ hp with attrs := odInsert hp.attrs k (HVal.hooked v b) },
     if b then [HpLoadEvent.loadWithStrict k]
     else [HpLoadEvent.loadWithStrict k, HpLoadEvent.typeErrorRetry k])
  | some (HVal.plain _) => ((hpSetAttr hp k (HVal.plain v)).1, [HpLoadEvent.directAssign k])
  | none => ((hpSetAttr hp k (HVal.plain v)).1, [HpLoadEvent.directAssign k])

/-- Fold step of HyperParameters.load threading the object state and
accumulating the observable events. -/
def hpLoadStep (strict : Bool) (acc : HP × List HpLoadEvent) (kv : String × Nat) : HP × List HpLoadEvent :=
  ((hpLoadKey acc.1 kv.1 kv.2 strict).1, acc.2 ++ (hpLoadKey acc.1 kv.1 kv.2 strict).2)

/-- HyperParameters.load (lines 160-185) over a saved state dictionary:
every entry is applied in order; no warning is ever logged. -/
def hpLoad (hp : HP) (state : List (String × Nat)) (strict : Bool) : HP × List HpLoadEvent :=
  state.foldl (hpLoadStep strict) (hp, [])

/-- Events produced when loading back the key k into the object hp. -/
def loadKeyTrace (hp : HP) (k : String) : List HpLoadEvent :=
  match lookupKey hp.attrs k with
  | some (HVal.hooked _ true) => [HpLoadEvent.loadWithStrict k]
  | some (HVal.hooked _ false) => [HpLoadEvent.loadWithStrict k, HpLoadEvent.typeErrorRetry k]
  | _ => [HpLoadEvent.directAssign k]

/-- Trace predicted for loading a saved state back into the object hp it
was saved from: hooked values go through their restoration hook, plain
values through direct assignment. -/
def expectedLoadTrace (hp : HP) : List (String × Nat) → List HpLoadEvent
  | [] => []
  | kv :: rest => loadKeyTrace hp kv.1 ++ expectedLoadTrace hp rest

/-- Keys of a state dictionary, in order. -/
def stateKeys (l : List (String × Nat)) : List String := l.map Prod.fst

/-- Equality of Python dict key views, which compare as sets. -/
def keysEqSet (a b : List String) : Bool :=
  a.all (fun k => b.contains k) && b.all (fun k => a.contains k)

/-- Modelled from the spec and the torch documentation: the partial
update performed by torch.nn.Module.load_state_dict, copying the
entries present in the incoming state over the matching parameters. -/
def torchPartialUpdate (params state : List (String × Nat)) : List (String × Nat) :=
  params.map fun kv =>
    match lookupKey state kv.1 with
    | some w => (kv.1, w)
    | none => kv

/-- Modelled from the spec: torch.nn.Module.load_state_dict raises when
strict is True and the key sets differ, and otherwise performs the
partial update.  This third-party behaviour is outside the repository
and is needed because Lightnet.load delegates to it. -/
def loadStateDictTorch (params state : List (String × Nat)) (strict : Bool) :
    Except String (List (String × Nat)) :=
  if strict && !keysEqSet (stateKeys state) (stateKeys params) then
    Except.error "RuntimeError"
  else
    Except.ok (torchPartialUpdate params state)

/-- Lightnet.load (src/build/lib/lightnet/network/module/_lightnet.py,
lines 78-96): the mismatch warning is logged only when strict is False
and the key sets differ, after which load_state_dict is called with the
given strict flag.  The result pairs the outcome of the underlying load
with the list of logged warnings. -/
def lnLoad (params state : List (String × Nat)) (strict : Bool) :
    Except String (List (String × Nat)) × List String :=
  (loadStateDictTorch params state strict,
   if !strict && !keysEqSet (stateKeys state) (stateKeys params) then
     ["Modules not matching, performing partial update"]
   else [])

/-! Helper lemmas shared between several claims. -/

theorem lookupKey_of_mem_nodup {α : Type} :
    ∀ (l : List (String × α)), (l.map Prod.fst).Nodup → ∀ k v, (k, v) ∈ l → lookupKey l k = some v := by
  intro l
  induction l with
  | nil => intro _ k v hv; cases hv
  | cons kv rest ih =>
    intro hnd k v hv
    rw [List.map_cons, List.nodup_cons] at hnd
    rcases List.mem_cons.mp hv with h | h
    · cases h
      simp [lookupKey]
    · have hk : kv.1 ≠ k := by
        intro he
        exact hnd.1 (he ▸ List.mem_map.mpr ⟨(k, v), h, rfl⟩)
      simp only [lookupKey, if_neg hk]
      exact ih hnd.2 k v h

theorem odInsert_lookup_self {α : Type} :
    ∀ (l : List (String × α)) (k : String) (v : α), lookupKey l k = some v → odInsert l k v = l := by
  intro l
  induction l with
  | nil => intro k v h; cases h
  | cons kv rest ih =>
    intro k v h
    by_cases hk : kv.1 = k
    · simp only [lookupKey, if_pos hk] at h
      injection h with h2
      simp only [odInsert, if_pos hk]
      cases kv
      simp_all
    · simp only [lookupKey, if_neg hk] at h
      simp only [odInsert, if_neg hk]
      rw [ih k v h]

theorem lnSaveRemap_eq_aux (m : String → String → Bool) (s : String → String → String → String)
    (remap : List (String × String)) :
    ∀ (sd : List (String × Nat)) (od : List (String × Nat)),
      sd.foldl (fun od kv =>
        match remapKey m s remap kv.1 with
        | some k2 => odInsert od k2 kv.2
        | none => od) od
      = (sd.filterMap fun kv => (remapKey m s remap kv.1).map fun k2 => (k2, kv.2)).foldl
          (fun od kv => odInsert od kv.1 kv.2) od := by
  intro sd
  induction sd with
  | nil => intro od; rfl
  | cons kv rest ih =>
    intro od
    cases h : remapKey m s remap kv.1 with
    | none => simp [List.foldl_cons, List.filterMap_cons, h, ih]
    | some k2 => simp [List.foldl_cons, List.filterMap_cons, h, ih]

theorem remapKey_first (m : String → String → Bool) (s : String → String → String → String) :
    ∀ (pre : List (String × String)) (r : String × String) (post : List (String × String)) (k : String),
      (∀ p ∈ pre, m p.1 k = false) → m r.1 k = true →
      remapKey m s (pre ++ r :: post) k = some (s r.1 r.2 k) := by
  intro pre
  induction pre with
  | nil =>
    intro r post k _ hr
    simp [remapKey, hr]
  | cons p rest ih =>
    intro r post k hpre hr
    have hp : m p.1 k = false := hpre p (List.mem_cons_self _ _)
    simp only [List.cons_append, remapKey, hp, Bool.false_eq_true, if_false]
    exact ih r post k (fun q hq => hpre q (List.mem_cons_of_mem _ hq)) hr

theorem remapKey_unmatched (m : String → String → Bool) (s : String → String → String → String) :
    ∀ (remap : List (String × String)) (k : String),
      (∀ r ∈ remap, m r.1 k = false) → remapKey m s remap k = none := by
  intro remap
  induction remap with
  | nil => intro k _; rfl
  | cons r rest ih =>
    intro k h
    have hr : m r.1 k = false := h r (List.mem_cons_self _ _)
    simp only [remapKey, hr, Bool.false_eq_true, if_false]
    exact ih k fun q hq => h q (List.mem_cons_of_mem _ hq)

/-- C1: in Lightnet.save with a remap list, the saved weights are
exactly the ordered-dict insertion of the per-key remapping, where each
key is renamed by the first rule whose pattern matches it (later rules
are never applied to that key) and a key matching no rule is omitted. -/
theorem lightnet_save_remap_first_match (m : String → String → Bool)
    (s : String → String → String → String)
    (remap : List (String × String)) (sd : List (String × Nat)) :
    lnSaveRemap m s remap sd =
      (sd.filterMap fun kv => (remapKey m s remap kv.1).map fun k2 => (k2, kv.2)).foldl
        (fun od kv => odInsert od kv.1 kv.2) [] ∧
    (∀ k pre r post, remap = pre ++ r :: post → (∀ p ∈ pre, m p.1 k = false) → m r.1 k = true →
       remapKey m s remap k = some (s r.1 r.2 k)) ∧
    (∀ k, (∀ r ∈ remap, m r.1 k = false) → remapKey m s remap k = none) := by
  refine ⟨lnSaveRemap_eq_aux m s remap sd [], ?_, ?_⟩
  · intro k pre r post heq hpre hr
    subst heq
    exact remapKey_first m s pre r post k hpre hr
  · intro k h
    exact remapKey_unmatched m s remap k h

/-- Witness for C1 at a concrete remap list with two rules sharing a
pattern: the first rule wins. -/
theorem lightnet_save_remap_first_match_witness :
    remapKey (fun p k => p == k) (fun _ r _ => r) [("conv", "layer"), ("conv", "other")] "conv" =
      some "layer" :=
  (lightnet_save_remap_first_match (fun p k => p == k) (fun _ r _ => r)
      [("conv", "layer"), ("conv", "other")] []).2.1
    "conv" [] ("conv", "layer") [("conv", "other")] rfl (by simp) (by decide)

theorem bsRun_same_dim (dim : Dim) (reqs : List (Option Dim)) (bs : List (List Nat)) :
    ∀ ob ∈ (bsRun dim reqs bs).1, ∀ x ∈ ob, ∀ y ∈ ob, x.1 = y.1 := by
  induction bs generalizing dim reqs with
  | nil =>
    intro ob hob
    simp [bsRun] at hob
  | cons b bs ih =>
    intro ob hob x hx y hy
    simp only [bsRun, List.mem_cons] at hob
    rcases hob with h | h
    · subst h
      obtain ⟨i, _, rfl⟩ := List.mem_map.mp hx
      obtain ⟨j, _, rfl⟩ := List.mem_map.mp hy
      rfl
    · exact ih _ _ ob h x hx y hy

theorem bsRun_batches (dim : Dim) (reqs : List (Option Dim)) (bs : List (List Nat)) :
    (bsRun dim reqs bs).1 =
      List.zipWith (fun d b => b.map fun i => (d, i)) (dimSeq dim reqs bs.length) bs := by
  induction bs generalizing dim reqs with
  | nil => rfl
  | cons b bs ih =>
    cases reqs with
    | nil => simp [bsRun, dimSeq, setInputDim, ih]
    | cons r t => cases r <;> simp [bsRun, dimSeq, setInputDim, ih]

theorem bsRun_log (dim : Dim) (reqs : List (Option Dim)) (bs : List (List Nat)) :
    (bsRun dim reqs bs).2 = (reqs.take (bs.length + 1)).filterMap id := by
  induction bs generalizing dim reqs with
  | nil =>
    cases reqs with
    | nil => rfl
    | cons r t => cases r <;> simp [bsRun, setInputDim]
  | cons b bs ih =>
    cases reqs with
    | nil => simpa [bsRun, setInputDim] using ih dim []
    | cons r t => cases r <;> simp [bsRun, setInputDim, ih]

/-- C2: every (resolution, index) pair inside one mini-batch yielded by
BatchSampler carries the same resolution; the yielded batches equal the
underlying index batches tagged with a per-batch dimension sequence that
only changes when a pending new_input_dim request is consumed at a batch
boundary; and exactly the consumed requests are logged as resizes. -/
theorem batchsampler_dim_invariant (dim : Dim) (reqs : List (Option Dim)) (bs : List (List Nat)) :
    (∀ ob ∈ (bsRun dim reqs bs).1, ∀ x ∈ ob, ∀ y ∈ ob, x.1 = y.1) ∧
    (bsRun dim reqs bs).1 =
      List.zipWith (fun d b => b.map fun i => (d, i)) (dimSeq dim reqs bs.length) bs ∧
    (bsRun dim reqs bs).2 = (reqs.take (bs.length + 1)).filterMap id :=
  ⟨bsRun_same_dim dim reqs bs, bsRun_batches dim reqs bs, bsRun_log dim reqs bs⟩

/-- Witness for C2 on a concrete run: one pending request, one batch of
two samples sharing the new resolution, and the resize logged. -/
theorem batchsampler_dim_invariant_witness :
    ((((320, 320), 0) : Dim × Nat).1 = (((320, 320), 1) : Dim × Nat).1) ∧
    (bsRun (416, 416) [some (320, 320)] [[0, 1]]).2 = [(320, 320)] :=
  ⟨(batchsampler_dim_invariant (416, 416) [some (320, 320)] [[0, 1]]).1
      [((320, 320), 0), ((320, 320), 1)] (by decide) _ (by decide) _ (by decide),
   ((batchsampler_dim_invariant (416, 416) [some (320, 320)] [[0, 1]]).2.2).trans (by decide)⟩

/-- C7: under resize_getitem, a (dim, i) index makes input_dim return
dim for the duration of the wrapped call (the inner function observes
dim and receives it), and after the call the override is removed so
input_dim returns the construction default again; a plain integer index
leaves the state untouched and, when no override is active, input_dim
stays at the default throughout. -/
theorem resize_getitem_scoped {α : Type} (g : Dim → Nat → α) (ds : LnDataset) (d : Dim) (i : Nat)
    (h : ds.overrideDim = none) :
    (resizeGetitem g ds (Sum.inr (d, i))).2.2 = d ∧
    (resizeGetitem g ds (Sum.inr (d, i))).1 = g d i ∧
    inputDim (resizeGetitem g ds (Sum.inr (d, i))).2.1 = ds.defaultDim ∧
    (resizeGetitem g ds (Sum.inl i)).2.2 = ds.defaultDim ∧
    (resizeGetitem g ds (Sum.inl i)).2.1 = ds := by
  refine ⟨rfl, rfl, rfl, ?_, rfl⟩
  simp [resizeGetitem, inputDim, h]

/-- Witness for C7: default (200, 200), temporary override (480, 320)
observed during the call and gone afterwards. -/
theorem resize_getitem_scoped_witness :
    (resizeGetitem (fun d i => (d, i)) (LnDataset.mk (200, 200) none) (Sum.inr ((480, 320), 0))).1 =
      ((480, 320), 0) ∧
    inputDim (resizeGetitem (fun d i => (d, i)) (LnDataset.mk (200, 200) none)
      (Sum.inr ((480, 320), 0))).2.1 = (200, 200) :=
  ⟨(resize_getitem_scoped (fun d i => (d, i)) (LnDataset.mk (200, 200) none) (480, 320) 0 rfl).2.1,
   (resize_getitem_scoped (fun d i => (d, i)) (LnDataset.mk (200, 200) none) (480, 320) 0 rfl).2.2.1⟩

/-- C8: BaseMultiTransform.__call__ returns a non-None unsupported input
unchanged after logging an error, and dispatches annotation dataframes,
PIL images and numpy arrays to the matching override without logging. -/
theorem multitransform_dispatch (tfAnno tfPil tfCv : Nat → TData) (x : Nat) :
    baseMultiTransformCall tfAnno tfPil tfCv (TData.other x) =
      (TData.other x, [TfEvent.errorUnsupported]) ∧
    baseMultiTransformCall tfAnno tfPil tfCv (TData.anno x) = (tfAnno x, [TfEvent.dispatchAnno]) ∧
    baseMultiTransformCall tfAnno tfPil tfCv (TData.pil x) = (tfPil x, [TfEvent.dispatchPil]) ∧
    baseMultiTransformCall tfAnno tfPil tfCv (TData.cv x) = (tfCv x, [TfEvent.dispatchCv]) :=
  ⟨rfl, rfl, rfl, rfl⟩

/-- C9: BaseMultiTransform.__call__ on None returns None with no logged
error and no dispatch event, independently of the three overrides. -/
theorem multitransform_none_passthrough (tfAnno tfPil tfCv tfA2 tfP2 tfC2 : Nat → TData) :
    baseMultiTransformCall tfAnno tfPil tfCv TData.pyNone = (TData.pyNone, []) ∧
    baseMultiTransformCall tfAnno tfPil tfCv TData.pyNone =
      baseMultiTransformCall tfA2 tfP2 tfC2 TData.pyNone :=
  ⟨rfl, rfl⟩

theorem hpLoadKey_trace (hp : HP) (k : String) (v : Nat) (strict : Bool) :
    (hpLoadKey hp k v strict).2 = loadKeyTrace hp k := by
  cases h : lookupKey hp.attrs k with
  | none => simp [hpLoadKey, loadKeyTrace, h]
  | some cur =>
    cases cur with
    | plain d => simp [hpLoadKey, loadKeyTrace, h]
    | hooked s b => cases b <;> simp [hpLoadKey, loadKeyTrace, h]

theorem hpLoadKey_fix (hp : HP) (k : String) (strict : Bool) (cur : HVal)
    (h : lookupKey hp.attrs k = some cur) :
    (hpLoadKey hp k (hvalSave cur) strict).1 = hp := by
  cases cur with
  | hooked s b =>
    have h2 := odInsert_lookup_self hp.attrs k (HVal.hooked s b) h
    simp [hpLoadKey, h, hvalSave, h2]
  | plain d =>
    have h2 := odInsert_lookup_self hp.attrs k (HVal.plain d) h
    simp [hpLoadKey, h, hvalSave, hpSetAttr, h2]

theorem hpLoad_roundtrip_aux (hp : HP) (strict : Bool) :
    ∀ st : List (String × Nat),
      (∀ kv ∈ st, ∃ cur, lookupKey hp.attrs kv.1 = some cur ∧ hvalSave cur = kv.2) →
      ∀ acc : List HpLoadEvent,
        st.foldl (hpLoadStep strict) (hp, acc) = (hp, acc ++ expectedLoadTrace hp st) := by
  intro st
  induction st with
  | nil => intro _ acc; simp [expectedLoadTrace]
  | cons kv rest ih =>
    intro hprem acc
    obtain ⟨cur, hcur, hval⟩ := hprem kv (List.mem_cons_self _ _)
    have hfix : (hpLoadKey hp kv.1 kv.2 strict).1 = hp := by
      rw [← hval]
      exact hpLoadKey_fix hp kv.1 strict cur hcur
    have htr := hpLoadKey_trace hp kv.1 kv.2 strict
    rw [List.foldl_cons]
    show List.foldl (hpLoadStep strict) (hpLoadStep strict (hp, acc) kv) rest = _
    rw [show hpLoadStep strict (hp, acc) kv = (hp, acc ++ loadKeyTrace hp kv.1) by
      simp [hpLoadStep, hfix, htr]]
    rw [ih (fun q hq => hprem q (List.mem_cons_of_mem _ hq)) (acc ++ loadKeyTrace hp kv.1)]
    simp [expectedLoadTrace, List.append_assoc]

theorem hpSave_mem_lookup (hp : HP) (hnd : (hp.attrs.map Prod.fst).Nodup) :
    ∀ kv ∈ hpSave hp, ∃ cur, lookupKey hp.attrs kv.1 = some cur ∧ hvalSave cur = kv.2 := by
  intro kv hkv
  unfold hpSave at hkv
  rw [List.mem_filterMap] at hkv
  obtain ⟨a, ha, hfa⟩ := hkv
  by_cases hm : a.1 ∈ hp.noSerialize
  · simp [hm] at hfa
  · simp only [hm, if_false, Option.some.injEq] at hfa
    refine ⟨a.2, ?_, ?_⟩
    · rw [← hfa]
      exact lookupKey_of_mem_nodup hp.attrs hnd a.1 a.2 (by simpa using ha)
    · rw [← hfa]

/-- C3: HyperParameters.save followed by HyperParameters.load restores
the object exactly, for any strict flag: serialized attributes with
state-extraction/restoration hooks round-trip through those hooks (the
trace shows a load_state_dict call, retried without the strict keyword
exactly for hooks lacking it) and plain attributes are restored by
direct assignment, while no-serialize attributes are untouched. -/
theorem hyperparameters_roundtrip (hp : HP) (strict : Bool)
    (h : (hp.attrs.map Prod.fst).Nodup) :
    (hpLoad hp (hpSave hp) strict).1 = hp ∧
    (hpLoad hp (hpSave hp) strict).2 = expectedLoadTrace hp (hpSave hp) := by
  have haux := hpLoad_roundtrip_aux hp strict (hpSave hp) (hpSave_mem_lookup hp h) []
  constructor
  · simpa [hpLoad] using congrArg Prod.fst haux
  · simpa [hpLoad] using congrArg Prod.snd haux

/-- Witness for C3 on a concrete container holding a plain counter, a
hooked value accepting strict, a hooked value rejecting it, and a
non-serialized attribute. -/
theorem hyperparameters_roundtrip_witness :
    (hpLoad
      (HP.mk [("batch", HVal.plain 3), ("net", HVal.hooked 7 true),
              ("opt", HVal.hooked 9 false), ("secret", HVal.plain 5)] ["secret"])
      (hpSave (HP.mk [("batch", HVal.plain 3), ("net", HVal.hooked 7 true),
              ("opt", HVal.hooked 9 false), ("secret", HVal.plain 5)] ["secret"]))
      true).1 =
      HP.mk [("batch", HVal.plain 3), ("net", HVal.hooked 7 true),
             ("opt", HVal.hooked 9 false), ("secret", HVal.plain 5)] ["secret"] :=
  (hyperparameters_roundtrip
    (HP.mk [("batch", HVal.plain 3), ("net", HVal.hooked 7 true),
            ("opt", HVal.hooked 9 false), ("secret", HVal.plain 5)] ["secret"])
    true (by decide)).1

/-- C5: when the current attribute for a loaded key exposes
load_state_dict, HyperParameters.load calls it with the strict keyword
and retries without the keyword exactly when that call raises TypeError
(hooks lacking the strict parameter); attributes whose current value has
no such hook are restored by plain assignment. -/
theorem hyperparameters_load_retry (hp : HP) (k : String) (v s : Nat) (b strict : Bool) :
    (lookupKey hp.attrs k = some (HVal.hooked s b) →
       hpLoadKey hp k v strict =
         ({ hp with attrs := odInsert hp.attrs k (HVal.hooked v b) },
          if b then [HpLoadEvent.loadWithStrict k]
          else [HpLoadEvent.loadWithStrict k, HpLoadEvent.typeErrorRetry k])) ∧
    (∀ d, lookupKey hp.attrs k = some (HVal.plain d) →
       hpLoadKey hp k v strict =
         ({ hp with attrs := odInsert hp.attrs k (HVal.plain v) }, [HpLoadEvent.directAssign k])) := by
  constructor
  · intro h
    simp [hpLoadKey, h]
  · intro d h
    simp [hpLoadKey, h, hpSetAttr]

/-- Witness for C5: a hook without the strict parameter is called with
the keyword, hits TypeError and is retried without it. -/
theorem hyperparameters_load_retry_witness :
    hpLoadKey (HP.mk [("opt", HVal.hooked 4 false)] []) "opt" 9 true =
      (HP.mk [("opt", HVal.hooked 9 false)] [],
       [HpLoadEvent.loadWithStrict "opt", HpLoadEvent.typeErrorRetry "opt"]) :=
  ((hyperparameters_load_retry (HP.mk [("opt", HVal.hooked 4 false)] []) "opt" 9 4 false true).1
    (by decide)).trans (by decide)

/-- C10: after initialization, assigning an underscore-prefixed name
whose stripped form already names an attribute raises AttributeError
before any mutation, so both the attribute dictionary and the
no-serialize list are left unchanged. -/
theorem hyperparameters_setattr_collision (hp : HP) (k : String) (v : HVal)
    (h0 : lookupKey hp.attrs k = none) (h1 : pyStartsUnderscore k = true)
    (h2 : (lookupKey hp.attrs (pyStripUnderscore k)).isSome = true) :
    hpSetAttr hp k v = (hp, some k) := by
  simp [hpSetAttr, h0, h1, h2]

/-- Witness for C10: assigning _epoch while epoch exists errors and
leaves the object unchanged. -/
theorem hyperparameters_setattr_collision_witness :
    hpSetAttr (HP.mk [("batch", HVal.plain 0), ("epoch", HVal.plain 0)] []) "_epoch"
        (HVal.plain 9) =
      (HP.mk [("batch", HVal.plain 0), ("epoch", HVal.plain 0)] [], some "_epoch") :=
  hyperparameters_setattr_collision
    (HP.mk [("batch", HVal.plain 0), ("epoch", HVal.plain 0)] []) "_epoch" (HVal.plain 9)
    (by decide) (by decide) (by decide)

/-- C4 counterexample: the kwarg _batch carries the underscore sentinel,
yet its value 5 is not stored under the stripped name batch, because an
attribute batch already exists (initialized to 0); the constructor logs
an already-exists error and drops the value, and nothing is added to the
no-serialize list.  This falsifies the unconditional claim that every
underscore-prefixed kwarg is stored under the stripped name and excluded
from the saved state. -/
theorem hyperparameters_underscore_counterexample :
    lookupKey (hpInit [("_batch", HVal.plain 5)]).1.attrs "batch" = some (HVal.plain 0) ∧
    (hpInit [("_batch", HVal.plain 5)]).2 = ["batch"] ∧
    (hpInit [("_batch", HVal.plain 5)]).1.noSerialize = [] := by
  refine ⟨?_, ?_, ?_⟩ <;> rfl

/-- C4 amended: an underscore-prefixed kwarg or post-construction
assignment whose stripped name does not already name an attribute is
stored under the stripped name and put on the no-serialize list (when
the stripped name is taken, __init__ logs an error and drops the kwarg);
no-serialize names never appear in the saved state, and every attribute
off that list is saved, as state_dict() for hooked values and raw
otherwise. -/
theorem hyperparameters_underscore_amended :
    (∀ (hp : HP) (errs : List String) (k : String) (v : HVal),
       pyStartsUnderscore k = true → hpHasattr hp (pyStripUnderscore k) = false →
       hpInitStep (hp, errs) (k, v) =
         ({ attrs := hp.attrs ++ [(pyStripUnderscore k, v)],
            noSerialize := hp.noSerialize ++ [pyStripUnderscore k] }, errs)) ∧
    (∀ (hp : HP) (errs : List String) (k : String) (v : HVal),
       pyStartsUnderscore k = true → hpHasattr hp (pyStripUnderscore k) = true →
       hpInitStep (hp, errs) (k, v) = (hp, errs ++ [pyStripUnderscore k])) ∧
    (∀ (hp : HP) (k : String) (v : HVal),
       lookupKey hp.attrs k = none → pyStartsUnderscore k = true →
       lookupKey hp.attrs (pyStripUnderscore k) = none →
       hpSetAttr hp k v =
         ({ attrs := hp.attrs ++ [(pyStripUnderscore k, v)],
            noSerialize := hp.noSerialize ++ [pyStripUnderscore k] }, none)) ∧
    (∀ (hp : HP) (k : String), k ∈ hp.noSerialize → ∀ v, (k, v) ∉ hpSave hp) ∧
    (∀ (hp : HP) (k : String) (v : HVal),
       (k, v) ∈ hp.attrs → k ∉ hp.noSerialize → (k, hvalSave v) ∈ hpSave hp) := by
  refine ⟨?_, ?_, ?_, ?_, ?_⟩
  · intro hp errs k v hk hh
    simp [hpInitStep, hk, hh]
  · intro hp errs k v hk hh
    simp [hpInitStep, hk, hh]
  · intro hp k v h0 hk h1
    simp [hpSetAttr, h0, hk, h1]
  · intro hp k hk v hmem
    unfold hpSave at hmem
    rw [List.mem_filterMap] at hmem
    obtain ⟨a, _, hfa⟩ := hmem
    by_cases hm : a.1 ∈ hp.noSerialize
    · simp [hm] at hfa
    · simp only [hm, if_false, Option.some.injEq] at hfa
      exact hm (by rw [show a.1 = k from congrArg Prod.fst hfa]; exact hk)
  · intro hp k v hmem hns
    unfold hpSave
    exact List.mem_filterMap.mpr ⟨(k, v), hmem, by simp [hns]⟩

/-- Witness for the amended C4: a fresh underscore kwarg is stored under
the stripped name and excluded from serialization. -/
theorem hyperparameters_underscore_amended_witness :
    hpSetAttr (HP.mk [("batch", HVal.plain 0)] []) "_lr" (HVal.plain 3) =
      (HP.mk [("batch", HVal.plain 0), ("lr", HVal.plain 3)] ["lr"], none) :=
  (hyperparameters_underscore_amended.2.2.1 (HP.mk [("batch", HVal.plain 0)] []) "_lr"
    (HVal.plain 3) (by decide) (by decide) (by decide)).trans (by decide)

theorem hpLoadKey_no_warn (hp : HP) (k : String) (v : Nat) (strict : Bool) :
    ((hpLoadKey hp k v strict).2.all fun e => !e.isWarn) = true := by
  cases h : lookupKey hp.attrs k with
  | none => simp [hpLoadKey, h, HpLoadEvent.isWarn]
  | some cur =>
    cases cur with
    | plain d => simp [hpLoadKey, h, HpLoadEvent.isWarn]
    | hooked s b => cases b <;> simp [hpLoadKey, h, HpLoadEvent.isWarn]

theorem hpLoad_no_warn_aux (strict : Bool) :
    ∀ (st : List (String × Nat)) (hp : HP) (acc : List HpLoadEvent),
      (acc.all fun e => !e.isWarn) = true →
      (((st.foldl (hpLoadStep strict) (hp, acc)).2.all fun e => !e.isWarn) = true) := by
  intro st
  induction st with
  | nil => intro hp acc hacc; simpa using hacc
  | cons kv rest ih =>
    intro hp acc hacc
    rw [List.foldl_cons]
    show ((rest.foldl (hpLoadStep strict) (hpLoadStep strict (hp, acc) kv)).2.all fun e => !e.isWarn) = true
    have h2 : ((acc ++ (hpLoadKey hp kv.1 kv.2 strict).2).all fun e => !e.isWarn) = true := by
      rw [List.all_append, hacc, hpLoadKey_no_warn]
      rfl
    exact ih (hpLoadKey hp kv.1 kv.2 strict).1 (acc ++ (hpLoadKey hp kv.1 kv.2 strict).2) h2

/-- C6 counterexample: loading a checkpoint whose key set mismatches the
object into HyperParameters produces only a direct assignment of the
extra key, with no warning event, even though the key sets differ; the
claim requires a warning to be logged for every mismatched checkpoint.
Moreover Lightnet.load with the default strict=True fails with a
RuntimeError on a mismatch instead of performing a partial load. -/
theorem load_mismatch_warning_counterexample :
    keysEqSet (stateKeys [("extra", 7)])
      ((HP.mk [("batch", HVal.plain 0)] []).attrs.map Prod.fst) = false ∧
    hpLoad (HP.mk [("batch", HVal.plain 0)] []) [("extra", 7)] true =
      (HP.mk [("batch", HVal.plain 0), ("extra", HVal.plain 7)] [],
       [HpLoadEvent.directAssign "extra"]) ∧
    (lnLoad [("a", 0)] [("b", 1)] true).1 = Except.error "RuntimeError" := by
  refine ⟨?_, ?_, ?_⟩ <;> rfl

/-- C6 amended: on a mismatched key set, Lightnet.load logs the partial
update warning and performs a best-effort partial load only when strict
is False, while with strict True the underlying load fails; and
HyperParameters.load always performs a best-effort load of the keys
present without ever logging a warning. -/
theorem load_mismatch_amended (params state : List (String × Nat)) (hp : HP)
    (st : List (String × Nat)) (strict : Bool) :
    (keysEqSet (stateKeys state) (stateKeys params) = false →
       lnLoad params state false =
         (Except.ok (torchPartialUpdate params state),
          ["Modules not matching, performing partial update"]) ∧
       lnLoad params state true = (Except.error "RuntimeError", [])) ∧
    (((hpLoad hp st strict).2.all fun e => !e.isWarn) = true) := by
  constructor
  · intro h
    constructor
    · simp [lnLoad, loadStateDictTorch, h]
    · simp [lnLoad, loadStateDictTorch, h]
  · exact hpLoad_no_warn_aux strict st hp [] rfl

/-- Witness for the amended C6: a concrete non-strict mismatched load
updates the shared key and logs the warning. -/
theorem load_mismatch_amended_witness :
    lnLoad [("a", 0), ("b", 1)] [("b", 5), ("c", 6)] false =
      (Except.ok [("a", 0), ("b", 5)], ["Modules not matching, performing partial update"]) :=
  (((load_mismatch_amended [("a", 0), ("b", 1)] [("b", 5), ("c", 6)]
      (HP.mk [] []) [] true).1 (by rfl)).1).trans (by rfl)
